import Mathlib

/-!
Shallow embedding of the flashnotes-backend version-history engine
(src/services/noteHistory.service.js, src/routes/notes.routes.js) and of
the older edit-logic variant, together with proofs of the history-engine
properties: bounded FIFO eviction, redo invalidation, undo/redo round
trips, empty-history errors, stale-write conflict detection, trash/restore
frame conditions and trim-stability.

Strings are modelled as lists of characters; JS `String.prototype.trim`
is modelled as dropping whitespace characters from both ends.  Timestamps
(`Date` values compared via `getTime()`) are modelled as natural numbers
(milliseconds).  JS in-place mutation becomes explicit state passing:
each operation takes a `Note` and returns the updated `Note`; a thrown
`Error` becomes an `Option HistoryError` component, returned alongside
the (unchanged) note, since the source throws before mutating anything.
-/

namespace Flashnotes

/-- Character strings of the JS source, modelled as lists of characters. -/
abbrev Str := List Char

/-- Whitespace as removed by `String.prototype.trim` (ASCII core). -/
def isWs (c : Char) : Bool :=
  c == ' ' || c == '\t' || c == '\n' || c == '\r'

/-- `s.trim()`: drop whitespace from the front, then from the back. -/
def trim (s : Str) : Str :=
  ((s.dropWhile isWs).reverse.dropWhile isWs).reverse

/-- A recorded prior state: `createSnapshot` captures `title`, `content`
and the capture time (`editedAt: new Date()`). -/
structure Snapshot where
  title : Str
  content : Str
  editedAt : Nat
deriving DecidableEq, Repr

/-- The document: editable fields, the two history stacks
(`versions` is the undo stack, `redoStack` the redo stack, both ordered
oldest first with the top at the end), the conflict token `updatedAt`,
and the soft-delete marker. -/
structure Note where
  title : Str
  content : Str
  versions : List Snapshot
  redoStack : List Snapshot
  updatedAt : Nat
  isDeleted : Bool
  deletedAt : Option Nat
deriving DecidableEq, Repr

/-- `MAX_HISTORY` from noteHistory.service.js. -/
def MAX_HISTORY : Nat := 20

/-- `createSnapshot(note)`: record the current title/content with the
current time. -/
def createSnapshot (note : Note) (now : Nat) : Snapshot :=
  { title := note.title, content := note.content, editedAt := now }

/-- `limitStack(stack)`: if the length exceeds `MAX_HISTORY`, `shift()`
removes the oldest (front) element. -/
def limitStack (stack : List α) : List α :=
  if stack.length > MAX_HISTORY then stack.tail else stack

/-- The `updates` argument of `applyUpdate`: each field may be absent
(`undefined` in JS). -/
structure Updates where
  title : Option Str
  content : Option Str
deriving DecidableEq, Repr

/-- `hasTitleChange`: the update carries a title whose trimmed value
differs from the current title. -/
def titleChanged (note : Note) (u : Updates) : Bool :=
  match u.title with
  | some t => decide (trim t ≠ note.title)
  | none => false

/-- `hasContentChange`: the update carries a content whose trimmed value
differs from the current content. -/
def contentChanged (note : Note) (u : Updates) : Bool :=
  match u.content with
  | some c => decide (trim c ≠ note.content)
  | none => false

/-- `applyUpdate(note, updates)` from noteHistory.service.js: if no real
change, return `false` without touching anything; otherwise push a
snapshot of the current state onto the undo stack (with eviction), clear
the redo stack, apply the trimmed changed fields, and return `true`. -/
def applyUpdate (note : Note) (u : Updates) (now : Nat) : Note × Bool :=
  let hasTitleChange := titleChanged note u
  let hasContentChange := contentChanged note u
  if !hasTitleChange && !hasContentChange then
    (note, false)
  else
    ({ note with
        versions := limitStack (note.versions ++ [createSnapshot note now])
        redoStack := []
        title := if hasTitleChange then trim (u.title.getD note.title) else note.title
        content := if hasContentChange then trim (u.content.getD note.content) else note.content },
      true)

/-- The error thrown by `undo`/`redo` on an empty stack. -/
inductive HistoryError where
  | emptyHistory (msg : String)
deriving DecidableEq, Repr

/-- `undo(note)`: throws if the undo stack is empty (before any
mutation); otherwise pushes a snapshot of the current state onto the redo
stack (with eviction), pops the undo stack and restores title/content
from the popped snapshot. -/
def undo (note : Note) (now : Nat) : Note × Option HistoryError :=
  match note.versions.getLast? with
  | none => (note, some (.emptyHistory "No hay cambios para deshacer"))
  | some previous =>
      ({ note with
          redoStack := limitStack (note.redoStack ++ [createSnapshot note now])
          versions := note.versions.dropLast
          title := previous.title
          content := previous.content },
        none)

/-- `redo(note)`: throws if the redo stack is empty (before any
mutation); otherwise pushes a snapshot of the current state onto the undo
stack (with eviction), pops the redo stack and restores title/content
from the popped snapshot. -/
def redo (note : Note) (now : Nat) : Note × Option HistoryError :=
  match note.redoStack.getLast? with
  | none => (note, some (.emptyHistory "No hay cambios para rehacer"))
  | some next =>
      ({ note with
          versions := limitStack (note.versions ++ [createSnapshot note now])
          redoStack := note.redoStack.dropLast
          title := next.title
          content := next.content },
        none)

/-- `applyUpdate` of the older variant (src/unnamed/part_001): identical
except that a document whose `versions` stack is empty (`isFirstEdit`)
snapshots unconditionally, even when no field changed; it returns no
value, only the updated note. -/
def applyUpdateV0 (note : Note) (u : Updates) (now : Nat) : Note :=
  let hasTitleChange := titleChanged note u
  let hasContentChange := contentChanged note u
  let isFirstEdit := note.versions.isEmpty
  if !hasTitleChange && !hasContentChange && !isFirstEdit then
    note
  else
    { note with
        versions := limitStack (note.versions ++ [createSnapshot note now])
        redoStack := []
        title := if hasTitleChange then trim (u.title.getD note.title) else note.title
        content := if hasContentChange then trim (u.content.getD note.content) else note.content }

/-! ## Route layer (src/routes/notes.routes.js)

The Mongoose model file (src/models/Note.js) is not part of the sources;
its behaviour is modelled from the spec where the routes rely on it. -/

/-- Modelled from the spec: src/models/Note.js (the Mongoose schema) is
missing from the sources.  Per the spec, "A Document's `updatedAt`
changes on every mutating operation"; Mongoose timestamps set
`updatedAt` when a modified note is saved, so saving a mutated note
stamps it with the current time. -/
def saveNote (note : Note) (now : Nat) : Note :=
  { note with updatedAt := now }

/-- The body of `PATCH /:id`: optional `title`, `content` and the
optimistic-concurrency token `lastKnownUpdate` (modelled as the parsed
`getTime()` millisecond value; field presence models JS truthiness,
since timestamps arrive as non-empty date strings). -/
structure EditRequest where
  title : Option Str
  content : Option Str
  lastKnownUpdate : Option Nat
deriving DecidableEq, Repr

/-- Outcome of the `PATCH /:id` handler, by HTTP status:
400 `badRequest`, 409 `staleWrite`, 200 `ok`. -/
inductive PatchOutcome where
  | badRequest (msg : String)
  | staleWrite
  | ok
deriving DecidableEq, Repr

/-- The optimistic-concurrency guard of `PATCH /:id`:
`lastKnownUpdate && new Date(lastKnownUpdate).getTime() !== note.updatedAt.getTime()`. -/
def staleCheck (req : EditRequest) (note : Note) : Bool :=
  match req.lastKnownUpdate with
  | some t => decide (t ≠ note.updatedAt)
  | none => false

/-- `title !== undefined && !title.trim()` — a present but
whitespace-only title. -/
def titleBlank (req : EditRequest) : Bool :=
  match req.title with
  | some t => decide (trim t = [])
  | none => false

/-- `content !== undefined && !content.trim()` — a present but
whitespace-only content. -/
def contentBlank (req : EditRequest) : Bool :=
  match req.content with
  | some c => decide (trim c = [])
  | none => false

/-- The `PATCH /:id` handler on a loaded note: reject when no field was
sent (400), then the stale-write guard (409), then field validation
(400), then `applyUpdate` followed by `note.save()`.  Saving stamps
`updatedAt` only when the note was modified (Mongoose timestamps touch
an unmodified document not at all; modelled from the spec, which makes
`updatedAt` change exactly on mutating operations).  Returns the outcome
and the resulting document state. -/
def patchNote (note : Note) (req : EditRequest) (now : Nat) :
    PatchOutcome × Note :=
  if req.title = none ∧ req.content = none then
    (.badRequest "No se enviaron campos para actualizar", note)
  else if staleCheck req note then
    (.staleWrite, note)
  else if titleBlank req then
    (.badRequest "El título no puede estar vacío", note)
  else if contentBlank req then
    (.badRequest "El contenido no puede estar vacío", note)
  else
    let r := applyUpdate note { title := req.title, content := req.content } now
    if r.2 then (.ok, saveNote r.1 now) else (.ok, r.1)

/-- The `POST /` handler: both fields must be present and non-blank
after trim; the note is created with the trimmed values and empty
history stacks (the Version Store starts empty per the spec, the schema
file being absent), stamped with the creation time. -/
def createNote (title content : Option Str) (now : Nat) : Option Note :=
  match title, content with
  | some t, some c =>
      if trim t = [] ∨ trim c = [] then none
      else some
        { title := trim t
          content := trim c
          versions := []
          redoStack := []
          updatedAt := now
          isDeleted := false
          deletedAt := none }
  | _, _ => none

/-- The `PATCH /:id/undo` handler on a loaded note: run `undo`; on
success save (stamping `updatedAt`), on error (caught, 400) the stored
document is untouched. -/
def undoRoute (note : Note) (now : Nat) : Note × Option HistoryError :=
  match undo note now with
  | (n, none) => (saveNote n now, none)
  | (_, some e) => (note, some e)

/-- The `PATCH /:id/redo` handler on a loaded note, as `undoRoute`. -/
def redoRoute (note : Note) (now : Nat) : Note × Option HistoryError :=
  match redo note now with
  | (n, none) => (saveNote n now, none)
  | (_, some e) => (note, some e)

/-- The `PATCH /:id/trash` handler: `loadNote` rejects an already
soft-deleted note (404, modelled as `none`); otherwise set `isDeleted`,
stamp `deletedAt` and save. -/
def trashNote (note : Note) (now : Nat) : Option Note :=
  if note.isDeleted then none
  else some (saveNote { note with isDeleted := true, deletedAt := some now } now)

/-- The `PATCH /:id/restore` handler: a note not in the trash is
rejected (404, modelled as `none`); otherwise clear `isDeleted` and
`deletedAt` and save. -/
def restoreNote (note : Note) (now : Nat) : Option Note :=
  if note.isDeleted then
    some (saveNote { note with isDeleted := false, deletedAt := none } now)
  else none

/-! ## Helper lemmas -/

theorem trim_eq_rdropWhile (s : Str) :
    trim s = List.rdropWhile isWs (s.dropWhile isWs) := rfl

theorem dropWhile_cons_head (p : Char → Bool) (l : Str) (x : Char) (xs : Str)
    (h : l.dropWhile p = x :: xs) : p x = false := by
  have h2 := List.head?_dropWhile_not p l
  rw [h] at h2
  simpa using h2

/-- JS `trim` is idempotent: trimming a trimmed string changes nothing. -/
theorem trim_trim (s : Str) : trim (trim s) = trim s := by
  rw [trim_eq_rdropWhile, trim_eq_rdropWhile]
  have hdrop : List.dropWhile isWs (List.rdropWhile isWs (s.dropWhile isWs))
      = List.rdropWhile isWs (s.dropWhile isWs) := by
    cases hz : List.rdropWhile isWs (s.dropWhile isWs) with
    | nil => rfl
    | cons x xs =>
      obtain ⟨t, ht⟩ := List.rdropWhile_prefix isWs (l := s.dropWhile isWs)
      rw [hz] at ht
      have hyx : s.dropWhile isWs = x :: (xs ++ t) := by rw [← ht]; simp
      have hx : isWs x = false := dropWhile_cons_head isWs s x (xs ++ t) hyx
      simp [List.dropWhile_cons, hx]
  rw [hdrop, List.rdropWhile_idempotent]

theorem applyUpdate_false (note : Note) (u : Updates) (now : Nat)
    (h : (applyUpdate note u now).2 = false) : applyUpdate note u now = (note, false) := by
  unfold applyUpdate at *
  by_cases hc : (!titleChanged note u && !contentChanged note u) = true
  · simp [hc]
  · simp [hc] at h

theorem applyUpdate_true_eq (note : Note) (u : Updates) (now : Nat)
    (h : (applyUpdate note u now).2 = true) :
    applyUpdate note u now =
      ({ note with
          versions := limitStack (note.versions ++ [createSnapshot note now])
          redoStack := []
          title := if titleChanged note u then trim (u.title.getD note.title) else note.title
          content := if contentChanged note u then trim (u.content.getD note.content) else note.content },
        true) := by
  unfold applyUpdate at *
  by_cases hc : (!titleChanged note u && !contentChanged note u) = true
  · simp [hc] at h
  · simp [hc]

/-- One bounded push as the service performs it at each of its three
call sites: `stack.push(snap)` followed by `limitStack(stack)`. -/
def pushLimited (stack : List α) (x : α) : List α :=
  limitStack (stack ++ [x])

theorem limitStack_of_le (l : List α) (h : l.length ≤ MAX_HISTORY) :
    limitStack l = l := by
  unfold limitStack
  simp [Nat.not_lt.mpr h]

theorem limitStack_concat_getLast (l : List α) (x : α) :
    (limitStack (l ++ [x])).getLast? = some x := by
  unfold limitStack
  split
  · rename_i h
    cases l with
    | nil => simp [MAX_HISTORY] at h
    | cons a t => simp [List.getLast?_concat]
  · exact List.getLast?_concat l

theorem pushLimited_of_lt (s : List α) (x : α) (h : s.length < MAX_HISTORY) :
    pushLimited s x = s ++ [x] := by
  unfold pushLimited limitStack
  split
  · rename_i hc
    exfalso
    simp at hc
    omega
  · rfl

theorem pushLimited_of_full (a : α) (t : List α) (x : α)
    (h : (a :: t).length = MAX_HISTORY) : pushLimited (a :: t) x = t ++ [x] := by
  unfold pushLimited limitStack
  split
  · rfl
  · rename_i hc
    exfalso
    simp at hc h
    omega

theorem foldl_pushLimited (xs : List α) : ∀ s : List α, s.length ≤ MAX_HISTORY →
    xs.foldl pushLimited s = (s ++ xs).drop (s.length + xs.length - MAX_HISTORY) := by
  induction xs with
  | nil =>
    intro s hs
    simp [Nat.sub_eq_zero_of_le hs]
  | cons x xs ih =>
    intro s hs
    rw [List.foldl_cons]
    rcases Nat.lt_or_ge s.length MAX_HISTORY with hlt | hge
    · rw [pushLimited_of_lt s x hlt, ih _ (by simp; omega)]
      have h2 : (s ++ [x]) ++ xs = s ++ x :: xs := by simp
      rw [h2]
      congr 1
      simp
      omega
    · have hEq : s.length = MAX_HISTORY := Nat.le_antisymm hs hge
      cases s with
      | nil => simp [MAX_HISTORY] at hEq
      | cons a t =>
        rw [pushLimited_of_full a t x hEq, ih _ (by simp at hEq ⊢; omega)]
        have h2 : (t ++ [x]) ++ xs = t ++ x :: xs := by simp
        rw [h2]
        have h3 : (t ++ [x]).length + xs.length - MAX_HISTORY = xs.length := by
          simp at hEq ⊢
          omega
        have h4 : (a :: t).length + (x :: xs).length - MAX_HISTORY = xs.length + 1 := by
          simp at hEq ⊢
          omega
        rw [h3, h4]
        simp only [List.cons_append, List.drop_succ_cons]

/-! ## Claim theorems -/

/-- C3.  Bounded history with FIFO eviction: any sequence of bounded
pushes starting from the empty stack leaves exactly the most recent
at-most-`MAX_HISTORY` pushed snapshots, in push order, so the length
never exceeds 20; pushing 21 snapshots yields snapshots 2..21 (the
first is evicted). -/
theorem bounded_history (xs : List Snapshot) :
    xs.foldl pushLimited [] = xs.drop (xs.length - MAX_HISTORY)
    ∧ (xs.foldl pushLimited []).length ≤ MAX_HISTORY
    ∧ (xs.length = 21 → xs.foldl pushLimited [] = xs.tail) := by
  have h := foldl_pushLimited xs [] (by simp)
  simp only [List.nil_append, List.length_nil, Nat.zero_add] at h
  refine ⟨h, ?_, ?_⟩
  · rw [h]
    simp
    omega
  · intro h21
    rw [h, h21]
    simp [MAX_HISTORY, List.drop_one]

/-- Witness for C3: 21 concrete snapshots pushed onto the empty stack
leave the last 20. -/
theorem bounded_history_witness :
    ((List.range 21).map (fun i => Snapshot.mk [] [] i)).length = 21
    ∧ ((List.range 21).map (fun i => Snapshot.mk [] [] i)).foldl pushLimited []
        = ((List.range 21).map (fun i => Snapshot.mk [] [] i)).tail :=
  ⟨by decide, (bounded_history _).2.2 (by decide)⟩

/-- C1.  Undo/redo round trip: after an `applyUpdate` that actually
changed something (state `S0` to state `S1`), `undo` succeeds and
restores the title and content of `S0`, and the subsequent `redo`
succeeds and restores the title and content of `S1`. -/
theorem undo_redo_round_trip (note note₁ : Note) (u : Updates)
    (now₁ now₂ now₃ : Nat)
    (h : applyUpdate note u now₁ = (note₁, true)) :
    (undo note₁ now₂).2 = none
    ∧ (undo note₁ now₂).1.title = note.title
    ∧ (undo note₁ now₂).1.content = note.content
    ∧ (redo (undo note₁ now₂).1 now₃).2 = none
    ∧ (redo (undo note₁ now₂).1 now₃).1.title = note₁.title
    ∧ (redo (undo note₁ now₂).1 now₃).1.content = note₁.content := by
  have htrue : (applyUpdate note u now₁).2 = true := by rw [h]
  have hEq := applyUpdate_true_eq note u now₁ htrue
  rw [h] at hEq
  have hnote₁ : note₁ =
      { note with
          versions := limitStack (note.versions ++ [createSnapshot note now₁])
          redoStack := []
          title := if titleChanged note u then trim (u.title.getD note.title) else note.title
          content := if contentChanged note u then trim (u.content.getD note.content) else note.content } :=
    congrArg Prod.fst hEq
  have hlast : note₁.versions.getLast? = some (createSnapshot note now₁) := by
    rw [hnote₁]
    exact limitStack_concat_getLast _ _
  have hundo : undo note₁ now₂ =
      ({ note₁ with
          redoStack := limitStack (note₁.redoStack ++ [createSnapshot note₁ now₂])
          versions := note₁.versions.dropLast
          title := (createSnapshot note now₁).title
          content := (createSnapshot note now₁).content },
        none) := by
    unfold undo
    rw [hlast]
  have hredo₀ : (undo note₁ now₂).1.redoStack = [createSnapshot note₁ now₂] := by
    rw [hundo]
    have : note₁.redoStack = [] := by rw [hnote₁]
    rw [this]
    simp [limitStack_of_le, MAX_HISTORY]
  have hlast₂ : (undo note₁ now₂).1.redoStack.getLast? = some (createSnapshot note₁ now₂) := by
    rw [hredo₀]
    rfl
  have hredo : redo (undo note₁ now₂).1 now₃ =
      ({ (undo note₁ now₂).1 with
          versions := limitStack ((undo note₁ now₂).1.versions ++
            [createSnapshot (undo note₁ now₂).1 now₃])
          redoStack := (undo note₁ now₂).1.redoStack.dropLast
          title := (createSnapshot note₁ now₂).title
          content := (createSnapshot note₁ now₂).content },
        none) := by
    unfold redo
    rw [hlast₂]
  refine ⟨?_, ?_, ?_, ?_, ?_, ?_⟩
  · rw [hundo]
  · rw [hundo]
    rfl
  · rw [hundo]
    rfl
  · rw [hredo]
  · rw [hredo]
    rfl
  · rw [hredo]
    rfl

/-- Witness for C1 at a concrete edit. -/
theorem undo_redo_round_trip_witness :
    applyUpdate
        { title := ['a'], content := ['b'], versions := [], redoStack := [],
          updatedAt := 0, isDeleted := false, deletedAt := none }
        { title := some ['c'], content := none } 1
      = ({ title := ['c'], content := ['b'],
           versions := [⟨['a'], ['b'], 1⟩], redoStack := [],
           updatedAt := 0, isDeleted := false, deletedAt := none }, true)
    ∧ (undo { title := ['c'], content := ['b'],
              versions := [⟨['a'], ['b'], 1⟩], redoStack := [],
              updatedAt := 0, isDeleted := false, deletedAt := none } 2).1.title = ['a']
    ∧ (redo (undo { title := ['c'], content := ['b'],
                    versions := [⟨['a'], ['b'], 1⟩], redoStack := [],
                    updatedAt := 0, isDeleted := false, deletedAt := none } 2).1 3).1.title
        = ['c'] :=
  ⟨by decide,
   (undo_redo_round_trip
      { title := ['a'], content := ['b'], versions := [], redoStack := [],
        updatedAt := 0, isDeleted := false, deletedAt := none }
      { title := ['c'], content := ['b'],
        versions := [⟨['a'], ['b'], 1⟩], redoStack := [],
        updatedAt := 0, isDeleted := false, deletedAt := none }
      { title := some ['c'], content := none } 1 2 3 (by decide)).2.1,
   (undo_redo_round_trip
      { title := ['a'], content := ['b'], versions := [], redoStack := [],
        updatedAt := 0, isDeleted := false, deletedAt := none }
      { title := ['c'], content := ['b'],
        versions := [⟨['a'], ['b'], 1⟩], redoStack := [],
        updatedAt := 0, isDeleted := false, deletedAt := none }
      { title := some ['c'], content := none } 1 2 3 (by decide)).2.2.2.2.1⟩

/-- C2.  Redo invalidation: after any `applyUpdate` that returns `true`
(at least one field actually changed after trim), the document's
`redoStack` is empty, regardless of its prior contents. -/
theorem applyUpdate_clears_redoStack (note : Note) (u : Updates) (now : Nat)
    (h : (applyUpdate note u now).2 = true) :
    (applyUpdate note u now).1.redoStack = [] := by
  rw [applyUpdate_true_eq note u now h]

/-- Witness for C2 at a concrete input. -/
theorem applyUpdate_clears_redoStack_witness :
    (applyUpdate
        { title := ['a'], content := ['b'],
          versions := [], redoStack := [⟨['x'], ['y'], 1⟩],
          updatedAt := 2, isDeleted := false, deletedAt := none }
        { title := some ['c'], content := none } 3).2 = true
    ∧ (applyUpdate
        { title := ['a'], content := ['b'],
          versions := [], redoStack := [⟨['x'], ['y'], 1⟩],
          updatedAt := 2, isDeleted := false, deletedAt := none }
        { title := some ['c'], content := none } 3).1.redoStack = [] :=
  ⟨by decide, applyUpdate_clears_redoStack _ _ _ (by decide)⟩

/-- C6.  No-op edit: when every proposed field is equal (after trim) to
the document's current value, `applyUpdate` performs no mutation at all
and returns `false`. -/
theorem applyUpdate_noop (note : Note) (u : Updates) (now : Nat)
    (ht : ∀ t, u.title = some t → trim t = note.title)
    (hc : ∀ c, u.content = some c → trim c = note.content) :
    applyUpdate note u now = (note, false) := by
  have h1 : titleChanged note u = false := by
    unfold titleChanged
    cases hu : u.title with
    | none => rfl
    | some t => simp [ht t hu]
  have h2 : contentChanged note u = false := by
    unfold contentChanged
    cases hu : u.content with
    | none => rfl
    | some c => simp [hc c hu]
  unfold applyUpdate
  simp [h1, h2]

/-- Witness for C6 at a concrete input (title differs only by
surrounding whitespace, content absent). -/
theorem applyUpdate_noop_witness :
    applyUpdate
        { title := ['a'], content := ['b'],
          versions := [⟨['o'], ['p'], 0⟩], redoStack := [],
          updatedAt := 2, isDeleted := false, deletedAt := none }
        { title := some [' ', 'a', ' '], content := some ['b'] } 3
      = ({ title := ['a'], content := ['b'],
           versions := [⟨['o'], ['p'], 0⟩], redoStack := [],
           updatedAt := 2, isDeleted := false, deletedAt := none }, false) :=
  applyUpdate_noop _ _ _ (by decide) (by decide)

/-- C4.  Empty-history errors: `undo` fails with `EmptyHistory` exactly
when the undo stack is empty, `redo` exactly when the redo stack is
empty, and in the failure case the document is returned completely
unchanged. -/
theorem undo_redo_empty_history (note : Note) (now : Nat) :
    ((undo note now).2.isSome ↔ note.versions = [])
    ∧ (note.versions = [] →
        undo note now = (note, some (.emptyHistory "No hay cambios para deshacer")))
    ∧ ((redo note now).2.isSome ↔ note.redoStack = [])
    ∧ (note.redoStack = [] →
        redo note now = (note, some (.emptyHistory "No hay cambios para rehacer"))) := by
  refine ⟨?_, ?_, ?_, ?_⟩
  · unfold undo
    cases hz : note.versions.getLast? with
    | none => simpa using List.getLast?_eq_none_iff.mp hz
    | some s =>
      simp only [Option.isSome]
      constructor
      · intro h; simp at h
      · intro h; rw [h] at hz; simp at hz
  · intro h
    unfold undo
    rw [h]
    rfl
  · unfold redo
    cases hz : note.redoStack.getLast? with
    | none => simpa using List.getLast?_eq_none_iff.mp hz
    | some s =>
      simp only [Option.isSome]
      constructor
      · intro h; simp at h
      · intro h; rw [h] at hz; simp at hz
  · intro h
    unfold redo
    rw [h]
    rfl

/-- Witness for C4 at a concrete freshly created document. -/
theorem undo_redo_empty_history_witness :
    (undo { title := ['a'], content := ['b'], versions := [], redoStack := [],
            updatedAt := 0, isDeleted := false, deletedAt := none } 1
      = ({ title := ['a'], content := ['b'], versions := [], redoStack := [],
           updatedAt := 0, isDeleted := false, deletedAt := none },
         some (.emptyHistory "No hay cambios para deshacer")))
    ∧ (redo { title := ['a'], content := ['b'], versions := [], redoStack := [],
              updatedAt := 0, isDeleted := false, deletedAt := none } 1
      = ({ title := ['a'], content := ['b'], versions := [], redoStack := [],
           updatedAt := 0, isDeleted := false, deletedAt := none },
         some (.emptyHistory "No hay cambios para rehacer"))) :=
  ⟨(undo_redo_empty_history _ 1).2.1 rfl, (undo_redo_empty_history _ 1).2.2.2 rfl⟩

/-- C5 counterexample.  The claim states that any edit request carrying
a `lastKnownUpdate` different from the document's `updatedAt` fails with
`StaleWrite` (409); but the handler checks "no fields sent" first, so a
stale request with neither `title` nor `content` fails with 400 instead
of 409. -/
theorem stale_write_counterexample :
    ({ title := none, content := none, lastKnownUpdate := some 1 } :
        EditRequest).lastKnownUpdate = some 1
    ∧ (1 : Nat) ≠ (⟨['a'], ['b'], [], [], 0, false, none⟩ : Note).updatedAt
    ∧ (patchNote ⟨['a'], ['b'], [], [], 0, false, none⟩
        { title := none, content := none, lastKnownUpdate := some 1 } 5).1
        ≠ .staleWrite
    ∧ (patchNote ⟨['a'], ['b'], [], [], 0, false, none⟩
        { title := none, content := none, lastKnownUpdate := some 1 } 5).1
        = .badRequest "No se enviaron campos para actualizar" := by
  refine ⟨rfl, by decide, ?_, rfl⟩
  intro h
  simp [patchNote] at h

/-- C5 amended.  For a request that carries at least one of
`title`/`content`: a present `lastKnownUpdate` that differs from the
document's `updatedAt` makes the edit fail with `StaleWrite` (409) with
the document and its Version Store unmutated; when `lastKnownUpdate` is
absent no conflict check is performed and the handler never answers
`StaleWrite`.  (A request with neither field is rejected with 400 by the
missing-fields check, which runs before the conflict check.) -/
theorem stale_write_guard (note : Note) (req : EditRequest) (now : Nat) :
    (∀ t, req.lastKnownUpdate = some t → t ≠ note.updatedAt →
      (req.title ≠ none ∨ req.content ≠ none) →
      patchNote note req now = (.staleWrite, note))
    ∧ (req.lastKnownUpdate = none → (patchNote note req now).1 ≠ .staleWrite) := by
  constructor
  · intro t ht hne hfields
    have hfields2 : ¬(req.title = none ∧ req.content = none) := by
      rcases hfields with h | h
      · exact fun hc => h hc.1
      · exact fun hc => h hc.2
    have hstale : staleCheck req note = true := by
      unfold staleCheck
      rw [ht]
      simpa using hne
    unfold patchNote
    rw [if_neg hfields2, if_pos hstale]
  · intro hnone
    have hstale : staleCheck req note = false := by
      unfold staleCheck
      rw [hnone]
    unfold patchNote
    split
    · intro h
      simp at h
    · rw [if_neg (by simp [hstale])]
      split
      · intro h
        simp at h
      · split
        · intro h
          simp at h
        · simp only
          split
          · intro h
            simp at h
          · intro h
            simp at h

/-- Witness for the amended C5 at concrete inputs. -/
theorem stale_write_guard_witness :
    patchNote ⟨['a'], ['b'], [], [], 0, false, none⟩
        { title := some ['c'], content := none, lastKnownUpdate := some 7 } 5
      = (.staleWrite, ⟨['a'], ['b'], [], [], 0, false, none⟩)
    ∧ (patchNote ⟨['a'], ['b'], [], [], 0, false, none⟩
        { title := some ['c'], content := none, lastKnownUpdate := none } 5).1
        ≠ .staleWrite :=
  ⟨(stale_write_guard _ _ _).1 7 rfl (by decide) (by simp),
   (stale_write_guard _ _ _).2 rfl⟩

/-- C9.  Trash/restore frame: the soft-delete and restore handlers leave
the title, the content and both history stacks (the Version Store)
unchanged, so history survives any trash/restore cycle. -/
theorem trash_restore_frame (note n' : Note) (now : Nat) :
    (trashNote note now = some n' →
      n'.title = note.title ∧ n'.content = note.content
      ∧ n'.versions = note.versions ∧ n'.redoStack = note.redoStack)
    ∧ (restoreNote note now = some n' →
      n'.title = note.title ∧ n'.content = note.content
      ∧ n'.versions = note.versions ∧ n'.redoStack = note.redoStack) := by
  constructor
  · intro h
    unfold trashNote at h
    split at h
    · simp at h
    · simp only [Option.some_inj] at h
      subst h
      exact ⟨rfl, rfl, rfl, rfl⟩
  · intro h
    unfold restoreNote at h
    split at h
    · simp only [Option.some_inj] at h
      subst h
      exact ⟨rfl, rfl, rfl, rfl⟩
    · simp at h

/-- Witness for C9 at a concrete note with non-empty history. -/
theorem trash_restore_frame_witness :
    trashNote ⟨['a'], ['b'], [⟨['x'], ['y'], 1⟩], [⟨['u'], ['v'], 2⟩], 3, false, none⟩ 9
      = some ⟨['a'], ['b'], [⟨['x'], ['y'], 1⟩], [⟨['u'], ['v'], 2⟩], 9, true, some 9⟩
    ∧ (⟨['a'], ['b'], [⟨['x'], ['y'], 1⟩], [⟨['u'], ['v'], 2⟩], 9, true, some 9⟩ :
        Note).versions
      = (⟨['a'], ['b'], [⟨['x'], ['y'], 1⟩], [⟨['u'], ['v'], 2⟩], 3, false, none⟩ :
        Note).versions :=
  ⟨by decide,
   (trash_restore_frame
      ⟨['a'], ['b'], [⟨['x'], ['y'], 1⟩], [⟨['u'], ['v'], 2⟩], 3, false, none⟩
      ⟨['a'], ['b'], [⟨['x'], ['y'], 1⟩], [⟨['u'], ['v'], 2⟩], 9, true, some 9⟩
      9).1 (by decide) |>.2.2.1⟩

/-- C8.  The two versions of the edit logic agree (same resulting title,
content and stacks) whenever the undo stack is non-empty or at least one
field actually changed after trim; they differ exactly when the undo
stack is empty and no field changed, where the older variant pushes one
snapshot and clears the redo stack while the newer one is a no-op
returning `false`. -/
theorem applyUpdate_versions_equiv (note : Note) (u : Updates) (now : Nat) :
    (note.versions ≠ [] ∨ titleChanged note u = true ∨ contentChanged note u = true →
      applyUpdateV0 note u now = (applyUpdate note u now).1)
    ∧ (note.versions = [] → titleChanged note u = false → contentChanged note u = false →
      applyUpdateV0 note u now
        = { note with versions := [createSnapshot note now], redoStack := [] }
      ∧ applyUpdate note u now = (note, false)) := by
  constructor
  · intro h
    by_cases hchg : (titleChanged note u || contentChanged note u) = true
    · unfold applyUpdateV0 applyUpdate
      rcases Bool.or_eq_true_iff.mp hchg with h1 | h1 <;> simp [h1]
    · simp only [Bool.or_eq_true_iff, not_or, Bool.not_eq_true] at hchg
      obtain ⟨h1, h2⟩ := hchg
      have hv : note.versions ≠ [] := by
        rcases h with h | h | h
        · exact h
        · rw [h1] at h; exact absurd h (by simp)
        · rw [h2] at h; exact absurd h (by simp)
      have hie : note.versions.isEmpty = false := by
        simpa using hv
      unfold applyUpdateV0 applyUpdate
      simp [h1, h2, hie]
  · intro hv h1 h2
    have hie : note.versions.isEmpty = true := by simp [hv]
    constructor
    · unfold applyUpdateV0
      simp [h1, h2, hie, limitStack_of_le, hv, MAX_HISTORY, createSnapshot]
    · unfold applyUpdate
      simp [h1, h2]

/-- Witness for C8: a no-change update on a document with empty undo
stack but non-empty redo stack — the older variant snapshots and clears
the redo stack, the newer one does nothing. -/
theorem applyUpdate_versions_equiv_witness :
    applyUpdateV0 ⟨['a'], ['b'], [], [⟨['u'], ['v'], 2⟩], 3, false, none⟩
        { title := some ['a'], content := none } 7
      = ⟨['a'], ['b'], [⟨['a'], ['b'], 7⟩], [], 3, false, none⟩
    ∧ applyUpdate ⟨['a'], ['b'], [], [⟨['u'], ['v'], 2⟩], 3, false, none⟩
        { title := some ['a'], content := none } 7
      = (⟨['a'], ['b'], [], [⟨['u'], ['v'], 2⟩], 3, false, none⟩, false) :=
  (applyUpdate_versions_equiv
      ⟨['a'], ['b'], [], [⟨['u'], ['v'], 2⟩], 3, false, none⟩
      { title := some ['a'], content := none } 7).2
    (by decide) (by decide) (by decide)

/-- C7.  Every mutating operation stamps `updatedAt`: creation stamps
the creation time; an edit that actually changed a field ends as the
`applyUpdate` result saved with the fresh timestamp (fields applied,
then stamped); successful undo and redo stamp the fresh timestamp.  With
a fresh clock value the stamp differs from the previous `updatedAt`. -/
theorem updatedAt_changes (note : Note) (req : EditRequest) (t c : Option Str)
    (now : Nat) (hnow : note.updatedAt ≠ now) :
    (∀ doc, createNote t c now = some doc → doc.updatedAt = now)
    ∧ (∀ n', patchNote note req now = (.ok, n') →
        (applyUpdate note { title := req.title, content := req.content } now).2 = true →
        n' = saveNote (applyUpdate note { title := req.title, content := req.content } now).1 now
        ∧ n'.updatedAt = now ∧ n'.updatedAt ≠ note.updatedAt)
    ∧ (∀ n', undoRoute note now = (n', none) →
        n'.updatedAt = now ∧ n'.updatedAt ≠ note.updatedAt)
    ∧ (∀ n', redoRoute note now = (n', none) →
        n'.updatedAt = now ∧ n'.updatedAt ≠ note.updatedAt) := by
  refine ⟨?_, ?_, ?_, ?_⟩
  · intro doc h
    unfold createNote at h
    cases t with
    | none => simp at h
    | some tv =>
      cases c with
      | none => simp at h
      | some cv =>
        simp only at h
        split at h
        · simp at h
        · simp only [Option.some_inj] at h
          subst h
          rfl
  · intro n' h hchg
    unfold patchNote at h
    split at h
    · simp at h
    · split at h
      · simp at h
      · split at h
        · simp at h
        · split at h
          · simp at h
          · simp only at h
            rw [if_pos hchg] at h
            have hn : n' = saveNote
                (applyUpdate note { title := req.title, content := req.content } now).1 now := by
              have := congrArg Prod.snd h
              simpa using this.symm
            exact ⟨hn, by rw [hn]; rfl, by rw [hn]; exact fun hc => hnow hc.symm⟩
  · intro n' h
    unfold undoRoute at h
    split at h
    · rename_i n hz
      have hn : n' = saveNote n now := by
        have := congrArg Prod.fst h
        simpa using this.symm
      exact ⟨by rw [hn]; rfl, by rw [hn]; exact fun hc => hnow hc.symm⟩
    · simp at h
  · intro n' h
    unfold redoRoute at h
    split at h
    · rename_i n hz
      have hn : n' = saveNote n now := by
        have := congrArg Prod.fst h
        simpa using this.symm
      exact ⟨by rw [hn]; rfl, by rw [hn]; exact fun hc => hnow hc.symm⟩
    · simp at h

/-- Witness for C7 at concrete operations. -/
theorem updatedAt_changes_witness :
    createNote (some ['a']) (some ['b']) 5
      = some ⟨['a'], ['b'], [], [], 5, false, none⟩
    ∧ patchNote ⟨['a'], ['b'], [], [], 0, false, none⟩
        { title := some ['c'], content := none, lastKnownUpdate := none } 5
      = (.ok, ⟨['c'], ['b'], [⟨['a'], ['b'], 5⟩], [], 5, false, none⟩)
    ∧ (⟨['c'], ['b'], [⟨['a'], ['b'], 5⟩], [], 5, false, none⟩ : Note).updatedAt
      ≠ (⟨['a'], ['b'], [], [], 0, false, none⟩ : Note).updatedAt
    ∧ undoRoute ⟨['c'], ['b'], [⟨['a'], ['b'], 5⟩], [], 5, false, none⟩ 6
      = (⟨['a'], ['b'], [], [⟨['c'], ['b'], 6⟩], 6, false, none⟩, none)
    ∧ (⟨['a'], ['b'], [], [⟨['c'], ['b'], 6⟩], 6, false, none⟩ : Note).updatedAt
      ≠ (⟨['c'], ['b'], [⟨['a'], ['b'], 5⟩], [], 5, false, none⟩ : Note).updatedAt := by
  refine ⟨by decide, by decide, ?_, by decide, ?_⟩
  · exact ((updatedAt_changes ⟨['a'], ['b'], [], [], 0, false, none⟩
      { title := some ['c'], content := none, lastKnownUpdate := none }
      none none 5 (by decide)).2.1
      ⟨['c'], ['b'], [⟨['a'], ['b'], 5⟩], [], 5, false, none⟩
      (by decide) (by decide)).2.2
  · exact ((updatedAt_changes ⟨['c'], ['b'], [⟨['a'], ['b'], 5⟩], [], 5, false, none⟩
      { title := none, content := none, lastKnownUpdate := none }
      none none 6 (by decide)).2.2.1
      ⟨['a'], ['b'], [], [⟨['c'], ['b'], 6⟩], 6, false, none⟩
      (by decide)).2

/-! ## Trim stability (C10) -/

/-- A string unchanged by trimming. -/
abbrev trimStable (s : Str) : Prop := trim s = s

/-- A snapshot whose captured fields are trim-stable. -/
abbrev snapStable (s : Snapshot) : Prop :=
  trimStable s.title ∧ trimStable s.content

/-- The trim-stability invariant: the document's fields and every
snapshot on either stack are unchanged by trimming. -/
abbrev NoteInv (n : Note) : Prop :=
  trimStable n.title ∧ trimStable n.content
  ∧ (∀ s ∈ n.versions, snapStable s) ∧ (∀ s ∈ n.redoStack, snapStable s)

theorem mem_limitStack {a : α} {l : List α} (h : a ∈ limitStack l) : a ∈ l := by
  unfold limitStack at h
  split at h
  · exact List.mem_of_mem_tail h
  · exact h

theorem mem_getLast? {a : α} {l : List α} (h : l.getLast? = some a) : a ∈ l := by
  cases l with
  | nil => simp at h
  | cons x xs =>
    rw [List.getLast?_eq_getLast _ (by simp)] at h
    simp only [Option.some_inj] at h
    rw [← h]
    exact List.getLast_mem _

/-- C10.  Trim stability is an invariant: it holds for every created
document and is preserved by `applyUpdate`, `undo` and `redo` — edits
only ever write trimmed values and snapshots only capture already
trim-stable fields. -/
theorem trim_stability (t c : Option Str) (note : Note) (u : Updates) (now : Nat) :
    (∀ doc, createNote t c now = some doc → NoteInv doc)
    ∧ (NoteInv note → NoteInv (applyUpdate note u now).1)
    ∧ (NoteInv note → NoteInv (undo note now).1)
    ∧ (NoteInv note → NoteInv (redo note now).1) := by
  refine ⟨?_, ?_, ?_, ?_⟩
  · intro doc h
    unfold createNote at h
    cases t with
    | none => simp at h
    | some tv =>
      cases c with
      | none => simp at h
      | some cv =>
        simp only at h
        split at h
        · simp at h
        · simp only [Option.some_inj] at h
          subst h
          exact ⟨trim_trim tv, trim_trim cv, by simp, by simp⟩
  · intro ⟨h1, h2, h3, h4⟩
    unfold applyUpdate
    simp only
    split
    · exact ⟨h1, h2, h3, h4⟩
    · dsimp only
      refine ⟨?_, ?_, ?_, by simp⟩
      · show trimStable
          (if titleChanged note u = true then trim (u.title.getD note.title) else note.title)
        split
        · exact trim_trim _
        · exact h1
      · show trimStable
          (if contentChanged note u = true then trim (u.content.getD note.content) else note.content)
        split
        · exact trim_trim _
        · exact h2
      · intro s hs
        have hs2 := mem_limitStack hs
        rcases List.mem_append.mp hs2 with hm | hm
        · exact h3 s hm
        · simp only [List.mem_singleton] at hm
          subst hm
          exact ⟨h1, h2⟩
  · intro ⟨h1, h2, h3, h4⟩
    unfold undo
    split
    · exact ⟨h1, h2, h3, h4⟩
    · rename_i previous hz
      have hp := h3 previous (mem_getLast? hz)
      refine ⟨hp.1, hp.2, ?_, ?_⟩
      · intro s hs
        exact h3 s (List.dropLast_subset _ hs)
      · intro s hs
        have hs2 := mem_limitStack hs
        rcases List.mem_append.mp hs2 with hm | hm
        · exact h4 s hm
        · simp only [List.mem_singleton] at hm
          subst hm
          exact ⟨h1, h2⟩
  · intro ⟨h1, h2, h3, h4⟩
    unfold redo
    split
    · exact ⟨h1, h2, h3, h4⟩
    · rename_i next hz
      have hp := h4 next (mem_getLast? hz)
      refine ⟨hp.1, hp.2, ?_, ?_⟩
      · intro s hs
        have hs2 := mem_limitStack hs
        rcases List.mem_append.mp hs2 with hm | hm
        · exact h3 s hm
        · simp only [List.mem_singleton] at hm
          subst hm
          exact ⟨h1, h2⟩
      · intro s hs
        exact h4 s (List.dropLast_subset _ hs)

/-- Witness for C10: the invariant holds on a freshly created document
and is preserved by a concrete edit whose proposal carries surrounding
whitespace. -/
theorem trim_stability_witness :
    NoteInv ⟨['a'], ['b'], [], [], 5, false, none⟩
    ∧ NoteInv (applyUpdate ⟨['a'], ['b'], [], [], 5, false, none⟩
        { title := some [' ', 'c', ' '], content := none } 6).1 :=
  ⟨(trim_stability (some ['a']) (some ['b'])
      ⟨['a'], ['b'], [], [], 5, false, none⟩
      { title := some [' ', 'c', ' '], content := none } 5).1
      ⟨['a'], ['b'], [], [], 5, false, none⟩ (by decide),
   (trim_stability (some ['a']) (some ['b'])
      ⟨['a'], ['b'], [], [], 5, false, none⟩
      { title := some [' ', 'c', ' '], content := none } 6).2.1 (by decide)⟩

end Flashnotes
